import Mathlib

/-!
Verification of the LANraragi XTC bridge conversion engine.

Shallow embedding of the TypeScript sources:
  * `apps/server/src/lib/settings.ts`   — settings record and flag mapping
  * `apps/server/src/lib/conversion.ts` — input resolution, dont-split
    rewriting, frame supervision
  * job registry module                  — job snapshots, progress events,
    artifact take/cleanup
  * `apps/server/src/lib/xteink-client.ts` — device upload retry
  * `apps/web/src/lib/api.ts`           — batch scheduler

JavaScript numbers are modelled as rationals (`ℚ`), strings as Lean
strings (or lists of characters where character-level reasoning is
needed), and fallible / effectful code as explicit state passing.
-/

namespace Bridge

/-! ## Settings (`apps/server/src/lib/settings.ts`) -/

/-- `orientation: "landscape" | "portrait"` from the TS union type. -/
inductive Orientation
  | landscape
  | portrait
  deriving DecidableEq, Repr

/-- `splitMode: "overlap" | "split" | "nosplit"` from the TS union type. -/
inductive SplitMode
  | overlap
  | split
  | nosplit
  deriving DecidableEq, Repr

/-- The `ConversionSettings` record (`apps/web/src/types.ts`).
Numeric fields of type `number | null` are `Option ℚ`. -/
structure ConversionSettings where
  orientation : Orientation
  splitMode : SplitMode
  noDither : Bool
  overlap : Bool
  splitSpreads : String
  splitAll : Bool
  skip : String
  only : String
  dontSplit : String
  contrastBoost : String
  margin : String
  includeOverviews : Bool
  sidewaysOverviews : Bool
  selectOverviews : String
  start : Option ℚ
  stop : Option ℚ
  padBlack : Bool
  hsplitCount : Option ℚ
  hsplitOverlap : Option ℚ
  hsplitMaxWidth : Option ℚ
  vsplitTarget : Option ℚ
  vsplitMinOverlap : Option ℚ
  sampleSet : String
  deriving DecidableEq, Repr

/-- `defaultConversionSettings` from `settings.ts`. -/
def defaultConversionSettings : ConversionSettings :=
  { orientation := .landscape
    splitMode := .overlap
    noDither := false
    overlap := true
    splitSpreads := ""
    splitAll := false
    skip := ""
    only := ""
    dontSplit := ""
    contrastBoost := "4"
    margin := "0"
    includeOverviews := false
    sidewaysOverviews := false
    selectOverviews := ""
    start := none
    stop := none
    padBlack := false
    hsplitCount := none
    hsplitOverlap := none
    hsplitMaxWidth := none
    vsplitTarget := none
    vsplitMinOverlap := none
    sampleSet := "" }

/-- Whitespace as `String.prototype.trim` sees it (ASCII portion). -/
def isJsWhitespace (c : Char) : Bool :=
  c = ' ' ∨ c = '\t' ∨ c = '\n' ∨ c = '\r' ∨ c = '\x0b' ∨ c = '\x0c'

/-- `value.trim()`: strip leading and trailing whitespace. -/
def jsTrim (s : String) : String :=
  ⟨((s.data.dropWhile isJsWhitespace).reverse.dropWhile isJsWhitespace).reverse⟩

/-- `hasValue`: a string field counts as present when its trimmed form is
non-empty (`typeof value === "string" && value.trim().length > 0`). -/
def hasValue (value : String) : Bool :=
  (jsTrim value).length > 0

/-- `Number.isInteger` on the rational model of a JS number. -/
def jsIsInteger (q : ℚ) : Bool :=
  q.den == 1

/-- `String(n)` for the integral JS numbers the flag mapping emits
(every emitted numeric flag value has passed `Number.isInteger`, except
the two overlap fractions, rendered by their reduced form). -/
def jsNumToString (q : ℚ) : String :=
  if q.den == 1 then toString q.num else toString q

/-- `settingsToCbz2xtcArgs` from `settings.ts`, line for line. -/
def settingsToCbz2xtcArgs (settings : ConversionSettings) : List String :=
  let effectiveOverlap := settings.splitMode = SplitMode.overlap ∨ settings.overlap
  let args : List String := []
  let args := args ++ (if effectiveOverlap then ["--overlap"] else [])
  let args := args ++ (if settings.noDither then ["--no-dither"] else [])
  let args := args ++ (if settings.splitAll then ["--split-all"] else [])
  let args := args ++ (if settings.includeOverviews then ["--include-overviews"] else [])
  let args := args ++ (if settings.sidewaysOverviews then ["--sideways-overviews"] else [])
  let args := args ++ (if settings.padBlack then ["--pad-black"] else [])
  let args := args ++ (if hasValue settings.splitSpreads then ["--split-spreads", jsTrim settings.splitSpreads] else [])
  let args := args ++ (if hasValue settings.skip then ["--skip", jsTrim settings.skip] else [])
  let args := args ++ (if hasValue settings.only then ["--only", jsTrim settings.only] else [])
  let args := args ++ (if hasValue settings.dontSplit then ["--dont-split", jsTrim settings.dontSplit] else [])
  let args := args ++ (if hasValue settings.contrastBoost then ["--contrast-boost", jsTrim settings.contrastBoost] else [])
  let args := args ++ (if hasValue settings.margin then ["--margin", jsTrim settings.margin] else [])
  let args := args ++ (if hasValue settings.selectOverviews then ["--select-overviews", jsTrim settings.selectOverviews] else [])
  let args := args ++ (if hasValue settings.sampleSet then ["--sample-set", jsTrim settings.sampleSet] else [])
  let args := args ++ (match settings.start with
    | some q => if jsIsInteger q ∧ 0 < q then ["--start", jsNumToString q] else []
    | none => [])
  let args := args ++ (match settings.stop with
    | some q => if jsIsInteger q ∧ 0 < q then ["--stop", jsNumToString q] else []
    | none => [])
  let args := args ++ (match settings.hsplitCount with
    | some q => if jsIsInteger q ∧ 0 < q then ["--hsplit-count", jsNumToString q] else []
    | none => [])
  let args := args ++ (match settings.hsplitOverlap with
    | some q => if 0 < q then ["--hsplit-overlap", jsNumToString q] else []
    | none => [])
  let args := args ++ (match settings.hsplitMaxWidth with
    | some q => if jsIsInteger q ∧ 0 < q then ["--hsplit-max-width", jsNumToString q] else []
    | none => [])
  let args := args ++ (match settings.vsplitTarget with
    | some q => if jsIsInteger q ∧ 0 < q then ["--vsplit-target", jsNumToString q] else []
    | none => [])
  let args := args ++ (match settings.vsplitMinOverlap with
    | some q => if 0 ≤ q then ["--vsplit-min-overlap", jsNumToString q] else []
    | none => [])
  args ++ ["--clean"]

/-! ## Dont-split rewriting and settings resolution
(`apps/server/src/lib/conversion.ts`) -/

/-- `raw.split(",")` on the character-list model: JS `String.prototype.split`
with a single-character separator. -/
def splitOnChar (sep : Char) : List Char → List (List Char)
  | [] => [[]]
  | c :: rest =>
    if c = sep then
      [] :: splitOnChar sep rest
    else
      match splitOnChar sep rest with
      | [] => [[c]]
      | h :: t => (c :: h) :: t

/-- The regex `/^\d+$/`: one or more ASCII digits and nothing else. -/
def isAllDigits (s : String) : Bool :=
  s.length > 0 && s.data.all Char.isDigit

/-- `Number(token)` for an all-digit token: decimal value. -/
def parseDecimal (s : String) : Nat :=
  s.data.foldl (fun n c => 10 * n + (c.toNat - '0'.toNat)) 0

/-- Keep the first occurrence of each token, dropping later duplicates
(the `seen` set filter in `shiftDontSplitForPrependedCover`). -/
def dedupKeepFirst (seen : List String) : List String → List String
  | [] => []
  | t :: rest =>
    if t ∈ seen then dedupKeepFirst seen rest
    else t :: dedupKeepFirst (t :: seen) rest

/-- `shiftDontSplitForPrependedCover` from `conversion.ts`: split on commas,
trim, drop empties, bump numeric tokens by one, prepend `"1"`, deduplicate,
rejoin. -/
def shiftDontSplitForPrependedCover (raw : String) : String :=
  let tokens := (splitOnChar ',' raw.data).map (fun t => jsTrim ⟨t⟩)
  let tokens := tokens.filter (fun t => t.length > 0)
  let tokens := tokens.map (fun t => if isAllDigits t then toString (parseDecimal t + 1) else t)
  let tokens := "1" :: tokens
  String.intercalate "," (dedupKeepFirst [] tokens)

/-- `buildPageRangeList` from `conversion.ts`:
`Array.from({length: count}, (_, idx) => String(idx + 1)).join(",")`. -/
def buildPageRangeList (count : Nat) : String :=
  String.intercalate "," ((List.range count).map (fun idx => toString (idx + 1)))

/-- Mutable per-job state owned by the `convertArchiveToXtc` closure: the
resolved `dontSplit` string and the `landscapeCoverPrepApplied` flag. -/
structure CoverPrepState where
  dontSplit : String
  landscapeCoverPrepApplied : Bool
  deriving DecidableEq, Repr

/-- `preparePagesForBuild` from `convertArchiveToXtc`: on the landscape
path with a non-empty page list it rewrites `dontSplit` (once, guarded by
`landscapeCoverPrepApplied`) and duplicates the first page. -/
def preparePagesForBuild (orientation : Orientation) (st : CoverPrepState)
    (pages : List String) : CoverPrepState × List String :=
  match pages with
  | [] => (st, [])
  | p :: rest =>
    if orientation ≠ Orientation.landscape then (st, p :: rest)
    else
      let st :=
        if ¬ st.landscapeCoverPrepApplied then
          { dontSplit := shiftDontSplitForPrependedCover st.dontSplit
            landscapeCoverPrepApplied := true }
        else st
      (st, p :: p :: rest)

/-- Resolution prologue of `convertArchiveToXtc`: portrait forces
`nosplit` + sideways overviews; the split mode then fixes `overlap`. -/
def resolveSettingsStage1 (s : ConversionSettings) : ConversionSettings :=
  let s :=
    if s.orientation = Orientation.portrait then
      { s with splitMode := SplitMode.nosplit, sidewaysOverviews := true }
    else s
  if s.splitMode = SplitMode.overlap then { s with overlap := true }
  else if s.splitMode = SplitMode.split then { s with overlap := false }
  else s

/-- The `nosplit` block of `convertArchiveToXtc`: with effective split mode
`nosplit`, take the metadata page count (falling back to the fetched page
list when it is zero), build the full range for `dontSplit`, and force
`overlap` and `splitAll` off. -/
def resolveSettingsNosplit (s : ConversionSettings)
    (metadataPagecount fallbackPageCount : Nat) : ConversionSettings :=
  if s.splitMode = SplitMode.nosplit then
    let pageCount := if metadataPagecount > 0 then metadataPagecount else fallbackPageCount
    let s := if pageCount > 0 then { s with dontSplit := buildPageRangeList pageCount } else s
    { s with overlap := false, splitAll := false }
  else s

/-- The full settings-resolution prefix of `convertArchiveToXtc`. -/
def resolveSettings (s : ConversionSettings)
    (metadataPagecount fallbackPageCount : Nat) : ConversionSettings :=
  resolveSettingsNosplit (resolveSettingsStage1 s) metadataPagecount fallbackPageCount

/-! ## Job snapshots and progress events (job registry module) -/

/-- `JobStatus = "queued" | "running" | "completed" | "failed"`. -/
inductive JobStatus
  | queued
  | running
  | completed
  | failed
  deriving DecidableEq, Repr

/-- `JobPage = { label, done }`. -/
structure JobPage where
  label : String
  done : Bool
  deriving DecidableEq, Repr

/-- `ConversionJobSnapshot`; `progress` is a JS number modelled as `ℚ`,
nullable fields are `Option`. The two ISO-timestamp fields (`createdAt`,
`updatedAt`), which hold wall-clock strings refreshed on every event and
constrain nothing, are not modelled. -/
structure ConversionJobSnapshot where
  jobId : String
  archiveId : String
  status : JobStatus
  stage : String
  message : String
  progress : ℚ
  totalPages : Nat
  completedPages : Nat
  pages : List JobPage
  currentPagePath : Option String
  currentConvertedFrameLabel : Option String
  convertedFrameVersion : Nat
  error : Option String
  downloadName : Option String
  fileSize : Option Nat
  deriving DecidableEq, Repr

/-- `ConversionProgressEvent` from `conversion.ts`. -/
inductive ConversionProgressEvent
  | stage (stage message : String)
  | pages_discovered (total : Nat) (pages : List String)
  | page_done (index total : Nat) (page : String)
  | cbz_ready (total : Nat)
  | cbz2xtc_frame (framePath frameLabel : String)
  | cbz2xtc_summary (summary : String)
  | done (fileSize : Nat) (downloadName : String)
  deriving DecidableEq, Repr

/-- `const pagePart = Math.min(0.7, (completedPages / totalPages) * 0.7)`
from `updateProgress`. -/
def pagePart (completedPages totalPages : Nat) : ℚ :=
  min (7/10 : ℚ) ((completedPages : ℚ) / (totalPages : ℚ) * (7/10))

/-- `updateProgress` from the job registry module, branch for branch
(0.7 = 7/10, 0.85 = 17/20, 0.35 = 7/20, 0.1 = 1/10). -/
def updateProgress (s : ConversionJobSnapshot) : ConversionJobSnapshot :=
  if s.status = JobStatus.completed then { s with progress := 1 }
  else if s.status = JobStatus.failed then s
  else if s.totalPages > 0 then
    if s.stage = "cbz2xtc" then
      { s with progress := max (pagePart s.completedPages s.totalPages) (17/20) }
    else { s with progress := max s.progress (pagePart s.completedPages s.totalPages) }
  else if s.stage = "cbz2xtc" then { s with progress := max s.progress (17/20) }
  else if s.stage = "archive-download" then { s with progress := max s.progress (7/20) }
  else if s.status = JobStatus.running then { s with progress := max s.progress (1/10) }
  else s

/-- The event dispatch of `applyProgressEvent` (everything before the final
`updateProgress(snapshot)` call), acting on the snapshot. A `page_done`
whose index is outside `1..pages.length` leaves the list unchanged (the JS
guard `snapshot.pages.length >= event.index` plus array index semantics). -/
def applyEventCore (s : ConversionJobSnapshot) (e : ConversionProgressEvent) :
    ConversionJobSnapshot :=
  match e with
  | .stage st msg => { s with stage := st, message := msg }
  | .pages_discovered total pages =>
    { s with totalPages := total, completedPages := 0
             pages := pages.map (fun label => ⟨label, false⟩)
             message := "Found " ++ toString total ++ " pages" }
  | .page_done index total page =>
    let pages :=
      if 1 ≤ index ∧ index ≤ s.pages.length then
        let oldLabel := ((s.pages.get? (index - 1)).map JobPage.label).getD ""
        s.pages.set (index - 1) ⟨if oldLabel = "" then page else oldLabel, true⟩
      else s.pages
    { s with totalPages := total
             completedPages := max s.completedPages index
             currentPagePath := some page
             pages := pages
             message := "Downloaded page " ++ toString index ++ "/" ++ toString total }
  | .cbz_ready total =>
    { s with message := "Built conversion archive with " ++ toString total ++ " pages" }
  | .cbz2xtc_frame _ frameLabel =>
    { s with currentConvertedFrameLabel := some frameLabel
             convertedFrameVersion := s.convertedFrameVersion + 1
             message := "Converting frame " ++ frameLabel }
  | .cbz2xtc_summary summary => { s with message := summary }
  | .done fileSize downloadName =>
    { s with status := JobStatus.completed, stage := "completed"
             message := "Conversion complete (" ++ toString fileSize ++ " bytes)"
             progress := 1
             downloadName := some downloadName
             fileSize := some fileSize }

/-- One `applyProgressEvent` call as it acts on the snapshot: event
dispatch followed by `updateProgress`. -/
def stepEvent (s : ConversionJobSnapshot) (e : ConversionProgressEvent) :
    ConversionJobSnapshot :=
  updateProgress (applyEventCore s e)

/-- A sequence of progress events applied in emission order. -/
def applyEvents (s : ConversionJobSnapshot) (events : List ConversionProgressEvent) :
    ConversionJobSnapshot :=
  events.foldl stepEvent s

/-- Reachability invariant of a snapshot that entered `running`: while
running the progress fraction sits in `[0, 0.85]`, on completion it is 1,
and no event sequence leaves those two statuses. -/
def ProgressInv (s : ConversionJobSnapshot) : Prop :=
  (s.status = JobStatus.running → 0 ≤ s.progress ∧ s.progress ≤ 17/20) ∧
  (s.status = JobStatus.completed → s.progress = 1) ∧
  (s.status = JobStatus.running ∨ s.status = JobStatus.completed)

/-- The snapshot right after `startConversionJob` flips the job to
`running` (stage `starting`, milestone progress 0.1). -/
def sampleRunningSnapshot : ConversionJobSnapshot :=
  { jobId := "job-1"
    archiveId := "arc-1"
    status := JobStatus.running
    stage := "starting"
    message := "Starting conversion"
    progress := 1/10
    totalPages := 0
    completedPages := 0
    pages := []
    currentPagePath := none
    currentConvertedFrameLabel := none
    convertedFrameVersion := 0
    error := none
    downloadName := none
    fileSize := none }

/-- The snapshot built by `startConversionJob` before the pipeline runs. -/
def initialSnapshot (jobId archiveId : String) : ConversionJobSnapshot :=
  { jobId := jobId
    archiveId := archiveId
    status := JobStatus.queued
    stage := "queued"
    message := "Queued"
    progress := 0
    totalPages := 0
    completedPages := 0
    pages := []
    currentPagePath := none
    currentConvertedFrameLabel := none
    convertedFrameVersion := 0
    error := none
    downloadName := none
    fileSize := none }

/-- `isFrameEvent e` holds exactly for `cbz2xtc_frame` events, the ones
whose application bumps `convertedFrameVersion`. -/
def isFrameEvent : ConversionProgressEvent → Bool
  | .cbz2xtc_frame _ _ => true
  | _ => false

/-! ## Frame supervision (`runCbz2xtc` / `emitFrame` in `conversion.ts`) -/

/-- `FRAME_MIN_AGE_MS = 350`. -/
def FRAME_MIN_AGE_MS : Int := 350

/-- A candidate frame found by `listConvertedFrames`:
path, modification time and size. -/
structure FrameCandidate where
  path : String
  mtimeMs : Int
  size : Nat
  deriving DecidableEq, Repr

/-- The dedup key: `` `${candidate.path}:${candidate.mtimeMs}:${candidate.size}` ``. -/
def frameKey (c : FrameCandidate) : String :=
  c.path ++ ":" ++ toString c.mtimeMs ++ ":" ++ toString c.size

/-- The candidate-selection loop inside `emitFrame`: skip already-emitted
keys, skip files younger than `FRAME_MIN_AGE_MS`, skip files failing the
PNG completeness check (`complete` stands for the filesystem-backed
`isCompletePngFile`), and pick the first survivor. -/
def findFrame (emitted : List String) (now : Int)
    (complete : FrameCandidate → Bool) : List FrameCandidate → Option FrameCandidate
  | [] => none
  | c :: rest =>
    if frameKey c ∈ emitted then findFrame emitted now complete rest
    else if now - c.mtimeMs < FRAME_MIN_AGE_MS then findFrame emitted now complete rest
    else if complete c then some c
    else findFrame emitted now complete rest

/-- A whole supervision run: the fixed-interval `emitFrame` polls in
order, threading `emittedSourceFrameKeys` and collecting the emitted
frame events. Each poll records the chosen candidate's key in the set as
soon as it is selected, and emits the frame event unless the copied
preview fails its own completeness re-check (`previewOk`). -/
def runPolls (complete previewOk : FrameCandidate → Bool) (emitted : List String) :
    List (Int × List FrameCandidate) → List String × List FrameCandidate
  | [] => (emitted, [])
  | (now, frames) :: rest =>
    match findFrame emitted now complete frames with
    | none => runPolls complete previewOk emitted rest
    | some c =>
      let next := runPolls complete previewOk (frameKey c :: emitted) rest
      if previewOk c then (next.1, c :: next.2) else next

/-! ## Job registry, TTL timers and artifact take (job registry module) -/

/-- `ConversionArtifact` minus its `dispose` closure (disposal is
modelled as an explicit effect where it matters). -/
structure ConversionArtifact where
  filePath : String
  downloadName : String
  fileSize : Nat
  deriving DecidableEq, Repr

/-- `ConversionJobRecord`; `cleanupTimer` records whether a TTL timer
handle is held. -/
structure ConversionJobRecord where
  snapshot : ConversionJobSnapshot
  artifact : Option ConversionArtifact
  cleanupTimer : Bool
  currentConvertedFramePath : Option String
  deriving DecidableEq, Repr

/-- The module-level `jobs` map together with the job ids whose scheduled
TTL disposal is still pending (timers set and neither cleared nor
fired). -/
structure JobRegistry where
  jobs : List (String × ConversionJobRecord)
  timers : List String
  deriving DecidableEq, Repr

/-- `jobs.get(jobId)`. -/
def jobsGet (jobs : List (String × ConversionJobRecord)) (jobId : String) :
    Option ConversionJobRecord :=
  (jobs.find? (fun p => p.1 = jobId)).map Prod.snd

/-- `jobs.set(jobId, record)`: replace in place or append. -/
def jobsSet : List (String × ConversionJobRecord) → String → ConversionJobRecord →
    List (String × ConversionJobRecord)
  | [], jobId, record => [(jobId, record)]
  | p :: rest, jobId, record =>
    if p.1 = jobId then (jobId, record) :: rest else p :: jobsSet rest jobId record

/-- `jobs.delete(jobId)`. -/
def jobsDelete (jobs : List (String × ConversionJobRecord)) (jobId : String) :
    List (String × ConversionJobRecord) :=
  jobs.filter (fun p => ¬ p.1 = jobId)

/-- `scheduleCleanup`: clear any previous timer for the job and arm a
fresh TTL disposal timer. -/
def scheduleCleanup (reg : JobRegistry) (jobId : String) : JobRegistry :=
  match jobsGet reg.jobs jobId with
  | none => reg
  | some record =>
    { jobs := jobsSet reg.jobs jobId { record with cleanupTimer := true }
      timers := jobId :: reg.timers.filter (fun t => ¬ t = jobId) }

/-- `takeJobArtifact`: hand the artifact out only for an existing,
completed, not-yet-taken job; clear the TTL timer and drop the record. -/
def takeJobArtifact (reg : JobRegistry) (jobId : String) :
    Option ConversionArtifact × JobRegistry :=
  match jobsGet reg.jobs jobId with
  | none => (none, reg)
  | some record =>
    if record.snapshot.status ≠ JobStatus.completed then (none, reg)
    else
      match record.artifact with
      | none => (none, reg)
      | some artifact =>
        (some artifact,
          { jobs := jobsDelete reg.jobs jobId
            timers := reg.timers.filter (fun t => ¬ t = jobId) })

/-- The success continuation of the async pipeline in
`startConversionJob` (after `convertArchiveToXtc` resolves): when the
registry entry has vanished, dispose the fresh artifact and insert
nothing; otherwise attach the artifact, complete the snapshot and
schedule TTL cleanup. The boolean reports whether the artifact was
disposed. -/
def completeConversionJob (reg : JobRegistry) (jobId : String)
    (artifact : ConversionArtifact) : JobRegistry × Bool :=
  match jobsGet reg.jobs jobId with
  | none => (reg, true)
  | some record =>
    let record := { record with
      artifact := some artifact
      snapshot := { record.snapshot with
        status := JobStatus.completed
        stage := "completed"
        message := "Conversion complete, ready to download"
        progress := 1
        downloadName := some artifact.downloadName
        fileSize := some artifact.fileSize } }
    (scheduleCleanup { reg with jobs := jobsSet reg.jobs jobId record } jobId, false)

/-! ## Input resolution (`convertArchiveToXtc`, `conversion.ts`) -/

/-- JS `toLowerCase()` on the character-list model. -/
def toLowerString (s : String) : String :=
  ⟨s.data.map Char.toLower⟩

/-- JS `startsWith`. -/
def startsWithStr (s p : String) : Bool :=
  p.data.isPrefixOf s.data

/-- Contiguous-substring scan over character lists. -/
def charsInfix (sub : List Char) : List Char → Bool
  | [] => sub.isPrefixOf []
  | c :: rest => sub.isPrefixOf (c :: rest) || charsInfix sub rest

/-- JS `includes`. -/
def containsSubstr (s sub : String) : Bool :=
  charsInfix sub.data s.data

/-- `extension.replace(/^\./, "")`: drop one leading dot. -/
def stripLeadingDot (s : String) : String :=
  match s.data with
  | '.' :: rest => ⟨rest⟩
  | _ => s

/-- `isCbzLikeExtension` from `conversion.ts`. -/
def isCbzLikeExtension (extension : String) : Bool :=
  let ext := toLowerString (stripLeadingDot extension)
  ext = "cbz" ∨ ext = "zip"

/-- `looksLikeCoverOrNonArchive` from `conversion.ts`: empty content-type
is trusted; an `image/` prefix or an HTML/JSON marker flags a disguised
non-archive payload. -/
def looksLikeCoverOrNonArchive (contentType : String) : Bool :=
  if (toLowerString contentType).data = [] then false
  else if startsWithStr (toLowerString contentType) "image/" then true
  else if containsSubstr (toLowerString contentType) "text/html" then true
  else if containsSubstr (toLowerString contentType) "application/json" then true
  else false

/-- How `convertArchiveToXtc` ends up obtaining its conversion
container. -/
inductive InputResolution
  | fromPageExtraction
  | directDownload
  | pagesFallback (pages : List String)
  | fatalError (msg : String)
  deriving DecidableEq, Repr

/-- The container-acquisition phase of `convertArchiveToXtc` (after the
optional page-extraction phase): `pageExtractionBuiltInput` is
`existsSync(archiveInputPath)`, `payloadIsZip` the `isZipArchive`
signature sniff of the downloaded bytes, `pages` what
`getArchivePagesRobust` resolves. -/
def resolveConversionInput (pageExtractionBuiltInput : Bool) (extension : String)
    (downloadContentType : String) (payloadIsZip : Bool) (pages : List String) :
    InputResolution :=
  if pageExtractionBuiltInput then .fromPageExtraction
  else if isCbzLikeExtension extension then
    if looksLikeCoverOrNonArchive downloadContentType then
      if pages.isEmpty then
        .fatalError "Archive download did not return an archive and no pages were found."
      else .pagesFallback pages
    else if payloadIsZip then .directDownload
    else if pages.isEmpty then
      .fatalError "Archive payload was not a zip archive and no pages were found."
    else .pagesFallback pages
  else if pages.isEmpty then
    .fatalError "Archive has no readable pages. Cannot build conversion input."
  else .pagesFallback pages

/-! ## Device upload retry (`xteink-client.ts`) -/

/-- A device HTTP exchange as `request` resolves it. -/
structure HttpResult where
  status : Nat
  body : String
  deriving DecidableEq, Repr

/-- `status >= 200 && status < 300`. -/
def is2xx (r : HttpResult) : Bool :=
  200 ≤ r.status ∧ r.status < 300

/-- `body.slice(0, 200)`. -/
def jsSlice200 (s : String) : String :=
  ⟨s.data.take 200⟩

/-- The case-insensitive regex
`/(already exists|exists|duplicate|conflict)/i` applied to the body. -/
def bodyLooksConflict (body : String) : Bool :=
  containsSubstr (toLowerString body) "already exists" ∨
  containsSubstr (toLowerString body) "exists" ∨
  containsSubstr (toLowerString body) "duplicate" ∨
  containsSubstr (toLowerString body) "conflict"

/-- The device's responses to the (up to) three requests `uploadFile` can
make: first upload attempt, delete of the destination path, retry. -/
structure UploadTrace where
  first : HttpResult
  deleteResult : HttpResult
  retry : HttpResult
  deriving DecidableEq, Repr

/-- Result of `uploadFile` plus how many upload attempts and delete calls
were issued. -/
structure UploadRun where
  error : Option String
  uploadCalls : Nat
  deleteCalls : Nat
  deriving DecidableEq, Repr

/-- `uploadFile` from `xteink-client.ts`: accept a 2xx first attempt;
on a conflict-like failure delete the destination (whose own failure is
wrapped around the original context) and retry exactly once; fail on
anything else. -/
def uploadFile (t : UploadTrace) : UploadRun :=
  if is2xx t.first then { error := none, uploadCalls := 1, deleteCalls := 0 }
  else
    if ¬ (t.first.status = 409 ∨ t.first.status = 412 ∨ bodyLooksConflict t.first.body) then
      { error := some ("Device upload failed (" ++ toString t.first.status ++ "): "
          ++ jsSlice200 t.first.body)
        uploadCalls := 1, deleteCalls := 0 }
    else if ¬ is2xx t.deleteResult then
      { error := some ("Device upload failed (" ++ toString t.first.status ++ "): "
          ++ jsSlice200 t.first.body ++ "; overwrite retry failed (Device delete failed ("
          ++ toString t.deleteResult.status ++ "): " ++ jsSlice200 t.deleteResult.body ++ ")")
        uploadCalls := 1, deleteCalls := 1 }
    else if ¬ is2xx t.retry then
      { error := some ("Device upload retry failed (" ++ toString t.retry.status ++ "): "
          ++ jsSlice200 t.retry.body)
        uploadCalls := 2, deleteCalls := 1 }
    else { error := none, uploadCalls := 2, deleteCalls := 1 }

/-! ## Batch scheduler (`runSelectedAction`, `apps/web/src/lib/api.ts`) -/

/-- `BATCH_MAX_PARALLEL = 4`. -/
def BATCH_MAX_PARALLEL : Nat := 4

/-- Phase of one task on the sequential upload chain. -/
inductive UploadPhase
  | queuedU
  | runningU
  | doneU
  | failedU
  deriving DecidableEq, Repr

/-- A chain link has settled (its `run` resolved or rejected). -/
def uploadSettled : UploadPhase → Bool
  | .doneU => true
  | .failedU => true
  | _ => false

/-- Interleaving state of one upload-mode batch: `nextIndex` is the
shared queue cursor, `converting` the archive indices currently awaited
by a worker, `uploads` the sequential upload chain in enqueue order,
`convFailures` the archives whose conversion rejected. -/
structure BatchState where
  nextIndex : Nat
  converting : List Nat
  uploads : List (Nat × UploadPhase)
  convFailures : List Nat
  deriving DecidableEq, Repr

/-- State before any worker runs. -/
def initBatch : BatchState :=
  { nextIndex := 0, converting := [], uploads := [], convFailures := [] }

/-- The suspension points of the batch: a free worker reading and
bumping `nextIndex`; a conversion settling (enqueueing an upload on
success, recording a failure on rejection — the worker then loops); the
`k`-th chained upload `run` starting (the chain admits it only after
every earlier link has settled, success or failure); that upload
settling. -/
inductive BatchAction
  | pick
  | convertOk (i : Nat)
  | convertFail (i : Nat)
  | uploadStart (k : Nat)
  | uploadSettle (k : Nat) (ok : Bool)
  deriving DecidableEq, Repr

/-- One scheduler step; `none` = the action is not enabled in `s`. -/
def batchStep (n w : Nat) (s : BatchState) : BatchAction → Option BatchState
  | .pick =>
    if s.nextIndex < n ∧ s.converting.length < w then
      some { s with nextIndex := s.nextIndex + 1
                    converting := s.converting ++ [s.nextIndex] }
    else none
  | .convertOk i =>
    if i ∈ s.converting then
      some { s with converting := s.converting.erase i
                    uploads := s.uploads ++ [(i, UploadPhase.queuedU)] }
    else none
  | .convertFail i =>
    if i ∈ s.converting then
      some { s with converting := s.converting.erase i
                    convFailures := s.convFailures ++ [i] }
    else none
  | .uploadStart k =>
    match s.uploads.get? k with
    | some (i, UploadPhase.queuedU) =>
      if (s.uploads.take k).all (fun p => uploadSettled p.2) then
        some { s with uploads := s.uploads.set k (i, UploadPhase.runningU) }
      else none
    | _ => none
  | .uploadSettle k ok =>
    match s.uploads.get? k with
    | some (i, UploadPhase.runningU) =>
      some { s with uploads :=
        s.uploads.set k (i, if ok then UploadPhase.doneU else UploadPhase.failedU) }
    | _ => none

/-- Run a whole interleaving. -/
def runBatch (n w : Nat) (s : BatchState) : List BatchAction → Option BatchState
  | [] => some s
  | a :: rest =>
    match batchStep n w s a with
    | some next => runBatch n w next rest
    | none => none

/-- `await Promise.all(workers)` plus `await Promise.all(uploadTasks)`
can resolve: queue exhausted, no conversion in flight, every enqueued
upload settled. -/
def batchDone (n : Nat) (s : BatchState) : Prop :=
  n ≤ s.nextIndex ∧ s.converting = [] ∧
    (s.uploads.all (fun p => uploadSettled p.2)) = true

/-- Scheduler invariant: worker pool bound, upload chain order (a running
link has every earlier link settled), and coverage (every picked index is
converting, failed, or on the upload chain). -/
def BatchInv (w : Nat) (s : BatchState) : Prop :=
  s.converting.length ≤ w ∧
  (∀ j k pj pk, j < k → s.uploads.get? j = some pj → s.uploads.get? k = some pk →
      pk.2 = UploadPhase.runningU → uploadSettled pj.2 = true) ∧
  (∀ i, i < s.nextIndex →
      i ∈ s.converting ∨ i ∈ s.convFailures ∨ i ∈ s.uploads.map Prod.fst)

/-- A concrete interleaving of the 6-archive, 4-worker upload batch in
which archive 2's conversion fails and every other archive converts and
uploads to completion. -/
def demoBatchActions : List BatchAction :=
  [.pick, .pick, .pick, .pick,
   .convertFail 2, .pick,
   .convertOk 0, .pick,
   .uploadStart 0,
   .convertOk 1,
   .uploadSettle 0 true,
   .uploadStart 1,
   .convertOk 3,
   .uploadSettle 1 true,
   .convertOk 4,
   .uploadStart 2,
   .uploadSettle 2 true,
   .convertOk 5,
   .uploadStart 3,
   .uploadSettle 3 true,
   .uploadStart 4,
   .uploadSettle 4 true]

/-- The state `demoBatchActions` reaches. -/
def demoBatchFinal : BatchState :=
  { nextIndex := 6
    converting := []
    uploads := [(0, .doneU), (1, .doneU), (3, .doneU), (4, .doneU), (5, .doneU)]
    convFailures := [2] }

theorem updateProgress_running (s : ConversionJobSnapshot)
    (h : s.status = JobStatus.running)
    (h0 : 0 ≤ s.progress) (h1 : s.progress ≤ 17/20) :
    (updateProgress s).status = s.status ∧
      s.progress ≤ (updateProgress s).progress ∧
      0 ≤ (updateProgress s).progress ∧
      (updateProgress s).progress ≤ 17/20 := by
  have hb : pagePart s.completedPages s.totalPages ≤ 17/20 :=
    (min_le_left _ _).trans (by norm_num)
  unfold updateProgress
  rw [h, if_neg (by decide : ¬ (JobStatus.running = JobStatus.completed)),
      if_neg (by decide : ¬ (JobStatus.running = JobStatus.failed))]
  by_cases h3 : s.totalPages > 0
  · rw [if_pos h3]
    by_cases h4 : s.stage = "cbz2xtc"
    · rw [if_pos h4]
      exact ⟨rfl, h1.trans (le_max_right _ _),
        le_trans (by norm_num) (le_max_right _ _), max_le hb le_rfl⟩
    · rw [if_neg h4]
      exact ⟨rfl, le_max_left _ _, h0.trans (le_max_left _ _), max_le h1 hb⟩
  · rw [if_neg h3]
    by_cases h4 : s.stage = "cbz2xtc"
    · rw [if_pos h4]
      exact ⟨rfl, le_max_left _ _, h0.trans (le_max_left _ _), max_le h1 le_rfl⟩
    · rw [if_neg h4]
      by_cases h5 : s.stage = "archive-download"
      · rw [if_pos h5]
        exact ⟨rfl, le_max_left _ _, h0.trans (le_max_left _ _), max_le h1 (by norm_num)⟩
      · rw [if_neg h5, if_pos rfl]
        exact ⟨rfl, le_max_left _ _, h0.trans (le_max_left _ _), max_le h1 (by norm_num)⟩

theorem updateProgress_completed (s : ConversionJobSnapshot)
    (h : s.status = JobStatus.completed) :
    (updateProgress s).progress = 1 ∧ (updateProgress s).status = JobStatus.completed := by
  unfold updateProgress
  rw [h, if_pos rfl]
  exact ⟨rfl, rfl⟩

theorem applyEventCore_cases (s : ConversionJobSnapshot) (e : ConversionProgressEvent) :
    ((applyEventCore s e).status = s.status ∧ (applyEventCore s e).progress = s.progress) ∨
    ((applyEventCore s e).status = JobStatus.completed ∧ (applyEventCore s e).progress = 1) := by
  cases e with
  | done fileSize downloadName => exact Or.inr ⟨rfl, rfl⟩
  | stage st msg => exact Or.inl ⟨rfl, rfl⟩
  | pages_discovered total pages => exact Or.inl ⟨rfl, rfl⟩
  | page_done index total page => exact Or.inl ⟨rfl, rfl⟩
  | cbz_ready total => exact Or.inl ⟨rfl, rfl⟩
  | cbz2xtc_frame p l => exact Or.inl ⟨rfl, rfl⟩
  | cbz2xtc_summary summary => exact Or.inl ⟨rfl, rfl⟩

theorem stepEvent_inv (s : ConversionJobSnapshot) (e : ConversionProgressEvent)
    (hInv : ProgressInv s) :
    ProgressInv (stepEvent s e) ∧ s.progress ≤ (stepEvent s e).progress := by
  obtain ⟨hrun, hcomp, hstat⟩ := hInv
  unfold stepEvent ProgressInv
  rcases applyEventCore_cases s e with ⟨hs, hp⟩ | ⟨hs, hp⟩
  · rcases hstat with h | h
    · obtain ⟨h0, h1⟩ := hrun h
      have h' : (applyEventCore s e).status = JobStatus.running := hs.trans h
      have h0' : 0 ≤ (applyEventCore s e).progress := by rw [hp]; exact h0
      have h1' : (applyEventCore s e).progress ≤ 17/20 := by rw [hp]; exact h1
      obtain ⟨u1, u2, u3, u4⟩ := updateProgress_running _ h' h0' h1'
      refine ⟨⟨fun _ => ⟨u3, u4⟩, ?_, Or.inl (u1.trans h')⟩, ?_⟩
      · intro hc
        rw [u1, h'] at hc
        exact absurd hc (by decide)
      · rw [hp] at u2
        exact u2
    · have h' : (applyEventCore s e).status = JobStatus.completed := hs.trans h
      obtain ⟨c1, c2⟩ := updateProgress_completed _ h'
      refine ⟨⟨?_, fun _ => c1, Or.inr c2⟩, ?_⟩
      · intro hr
        rw [c2] at hr
        exact absurd hr (by decide)
      · rw [hcomp h, c1]
  · obtain ⟨c1, c2⟩ := updateProgress_completed _ hs
    refine ⟨⟨?_, fun _ => c1, Or.inr c2⟩, ?_⟩
    · intro hr
      rw [c2] at hr
      exact absurd hr (by decide)
    · rw [c1]
      rcases hstat with h | h
      · exact (hrun h).2.trans (by norm_num)
      · rw [hcomp h]

theorem applyEvents_inv (events : List ConversionProgressEvent)
    (s : ConversionJobSnapshot) (h : ProgressInv s) :
    ProgressInv (applyEvents s events) ∧ s.progress ≤ (applyEvents s events).progress := by
  induction events generalizing s with
  | nil => exact ⟨h, le_refl _⟩
  | cons e rest ih =>
    obtain ⟨h1, h2⟩ := stepEvent_inv s e h
    obtain ⟨h3, h4⟩ := ih _ h1
    exact ⟨h3, le_trans h2 h4⟩

end Bridge

/-- C2: the default `ConversionSettings` (landscape, overlap split mode,
contrast boost "4", margin "0", everything else false/blank/null) maps
through `settingsToCbz2xtcArgs` to exactly
`["--overlap", "--contrast-boost", "4", "--margin", "0", "--clean"]`. -/
theorem default_settings_args :
    Bridge.settingsToCbz2xtcArgs Bridge.defaultConversionSettings =
      ["--overlap", "--contrast-boost", "4", "--margin", "0", "--clean"] := by
  rfl

/-- C4: with landscape orientation and an original `dontSplit` of `"2,4"`,
the cover-prepend adjustment rewrites `dontSplit` to exactly `"1,3,5"`,
marks the job as adjusted, and a second invocation of
`preparePagesForBuild` for the same job leaves the state unchanged. -/
theorem cover_prep_shift_once (pages pages2 : List String) (h : pages ≠ []) :
    ((Bridge.preparePagesForBuild Bridge.Orientation.landscape ⟨"2,4", false⟩ pages).1.dontSplit
        = "1,3,5") ∧
    ((Bridge.preparePagesForBuild Bridge.Orientation.landscape ⟨"2,4", false⟩ pages).1.landscapeCoverPrepApplied
        = true) ∧
    (Bridge.preparePagesForBuild Bridge.Orientation.landscape
        (Bridge.preparePagesForBuild Bridge.Orientation.landscape ⟨"2,4", false⟩ pages).1 pages2).1
      = (Bridge.preparePagesForBuild Bridge.Orientation.landscape ⟨"2,4", false⟩ pages).1 := by
  obtain ⟨p, rest, rfl⟩ := List.exists_cons_of_ne_nil h
  have key : (Bridge.preparePagesForBuild Bridge.Orientation.landscape ⟨"2,4", false⟩ (p :: rest)).1
      = ⟨Bridge.shiftDontSplitForPrependedCover "2,4", true⟩ := rfl
  rw [key]
  refine ⟨by decide, rfl, ?_⟩
  cases pages2 with
  | nil => rfl
  | cons q t => rfl

/-- C4 witness: concrete one-page job, invoked twice. -/
theorem cover_prep_shift_once_witness :
    ((Bridge.preparePagesForBuild Bridge.Orientation.landscape ⟨"2,4", false⟩ ["p1.jpg"]).1.dontSplit
        = "1,3,5") ∧
    ((Bridge.preparePagesForBuild Bridge.Orientation.landscape ⟨"2,4", false⟩ ["p1.jpg"]).1.landscapeCoverPrepApplied
        = true) ∧
    (Bridge.preparePagesForBuild Bridge.Orientation.landscape
        (Bridge.preparePagesForBuild Bridge.Orientation.landscape ⟨"2,4", false⟩ ["p1.jpg"]).1 ["p1.jpg"]).1
      = (Bridge.preparePagesForBuild Bridge.Orientation.landscape ⟨"2,4", false⟩ ["p1.jpg"]).1 :=
  cover_prep_shift_once ["p1.jpg"] ["p1.jpg"] (by decide)

/-- C5: whenever the effective split mode is `nosplit` and the archive
metadata reports 5 pages, the resolved settings carry
`dontSplit = "1,2,3,4,5"` and `overlap = false`, whatever the caller's
original overlap value or the fallback page list length. -/
theorem nosplit_resolution (s : Bridge.ConversionSettings) (fallback : Nat)
    (h : (Bridge.resolveSettingsStage1 s).splitMode = Bridge.SplitMode.nosplit) :
    (Bridge.resolveSettings s 5 fallback).dontSplit = "1,2,3,4,5" ∧
    (Bridge.resolveSettings s 5 fallback).overlap = false := by
  have key : Bridge.resolveSettings s 5 fallback
      = { Bridge.resolveSettingsStage1 s with
            dontSplit := Bridge.buildPageRangeList 5
            overlap := false
            splitAll := false } := by
    unfold Bridge.resolveSettings Bridge.resolveSettingsNosplit
    rw [if_pos h]
    rfl
  rw [key]
  exact ⟨show Bridge.buildPageRangeList 5 = "1,2,3,4,5" by decide, rfl⟩

/-- C5 witness: portrait defaults (which force `nosplit`) on a 5-page
archive. -/
theorem nosplit_resolution_witness :
    (Bridge.resolveSettings
        { Bridge.defaultConversionSettings with orientation := Bridge.Orientation.portrait }
        5 0).dontSplit = "1,2,3,4,5" ∧
    (Bridge.resolveSettings
        { Bridge.defaultConversionSettings with orientation := Bridge.Orientation.portrait }
        5 0).overlap = false :=
  nosplit_resolution _ 0 (by decide)

/-- C1: starting from any running snapshot satisfying the reachability
invariant, along any sequence of progress events the snapshot's
`progress` is monotonically non-decreasing, stays within `[0, 1]`, and
equals exactly 1 at every point where the status has become
`completed`. -/
theorem job_progress_monotone (s0 : Bridge.ConversionJobSnapshot)
    (events : List Bridge.ConversionProgressEvent)
    (hInv : Bridge.ProgressInv s0) (hrun : s0.status = Bridge.JobStatus.running) :
    (∀ i j, i ≤ j →
        (Bridge.applyEvents s0 (events.take i)).progress
          ≤ (Bridge.applyEvents s0 (events.take j)).progress) ∧
    (∀ i, 0 ≤ (Bridge.applyEvents s0 (events.take i)).progress ∧
          (Bridge.applyEvents s0 (events.take i)).progress ≤ 1) ∧
    (∀ i, (Bridge.applyEvents s0 (events.take i)).status = Bridge.JobStatus.completed →
          (Bridge.applyEvents s0 (events.take i)).progress = 1) := by
  have key : ∀ i, Bridge.ProgressInv (Bridge.applyEvents s0 (events.take i)) :=
    fun i => (Bridge.applyEvents_inv (events.take i) s0 hInv).1
  refine ⟨?_, ?_, fun i h => (key i).2.1 h⟩
  · intro i j hij
    have hsplit : events.take j = events.take i ++ (events.drop i).take (j - i) := by
      conv_lhs => rw [← Nat.add_sub_cancel' hij]
      exact List.take_add events i (j - i)
    rw [hsplit]
    unfold Bridge.applyEvents
    rw [List.foldl_append]
    exact (Bridge.applyEvents_inv ((events.drop i).take (j - i)) _ (key i)).2
  · intro i
    obtain ⟨hr, hc, hs⟩ := key i
    rcases hs with h | h
    · obtain ⟨l, u⟩ := hr h
      exact ⟨l, u.trans (by norm_num)⟩
    · rw [hc h]
      exact ⟨by norm_num, le_refl 1⟩

/-- C1 witness: the freshly started running snapshot, pushed through a
page-discovery, a page completion and the final `done` event. -/
theorem job_progress_monotone_witness :
    (∀ i j, i ≤ j →
        (Bridge.applyEvents Bridge.sampleRunningSnapshot
            (([Bridge.ConversionProgressEvent.pages_discovered 2 ["a", "b"],
               Bridge.ConversionProgressEvent.page_done 1 2 "a",
               Bridge.ConversionProgressEvent.done 512 "out.xtc"]).take i)).progress
          ≤ (Bridge.applyEvents Bridge.sampleRunningSnapshot
            (([Bridge.ConversionProgressEvent.pages_discovered 2 ["a", "b"],
               Bridge.ConversionProgressEvent.page_done 1 2 "a",
               Bridge.ConversionProgressEvent.done 512 "out.xtc"]).take j)).progress) ∧
    (∀ i, 0 ≤ (Bridge.applyEvents Bridge.sampleRunningSnapshot
            (([Bridge.ConversionProgressEvent.pages_discovered 2 ["a", "b"],
               Bridge.ConversionProgressEvent.page_done 1 2 "a",
               Bridge.ConversionProgressEvent.done 512 "out.xtc"]).take i)).progress ∧
          (Bridge.applyEvents Bridge.sampleRunningSnapshot
            (([Bridge.ConversionProgressEvent.pages_discovered 2 ["a", "b"],
               Bridge.ConversionProgressEvent.page_done 1 2 "a",
               Bridge.ConversionProgressEvent.done 512 "out.xtc"]).take i)).progress ≤ 1) ∧
    (∀ i, (Bridge.applyEvents Bridge.sampleRunningSnapshot
            (([Bridge.ConversionProgressEvent.pages_discovered 2 ["a", "b"],
               Bridge.ConversionProgressEvent.page_done 1 2 "a",
               Bridge.ConversionProgressEvent.done 512 "out.xtc"]).take i)).status
            = Bridge.JobStatus.completed →
          (Bridge.applyEvents Bridge.sampleRunningSnapshot
            (([Bridge.ConversionProgressEvent.pages_discovered 2 ["a", "b"],
               Bridge.ConversionProgressEvent.page_done 1 2 "a",
               Bridge.ConversionProgressEvent.done 512 "out.xtc"]).take i)).progress = 1) :=
  job_progress_monotone Bridge.sampleRunningSnapshot
    [Bridge.ConversionProgressEvent.pages_discovered 2 ["a", "b"],
     Bridge.ConversionProgressEvent.page_done 1 2 "a",
     Bridge.ConversionProgressEvent.done 512 "out.xtc"]
    ⟨fun _ => ⟨by norm_num [Bridge.sampleRunningSnapshot],
               by norm_num [Bridge.sampleRunningSnapshot]⟩,
     fun hc => by simp [Bridge.sampleRunningSnapshot] at hc,
     Or.inl rfl⟩
    rfl

theorem updateProgress_version (s : Bridge.ConversionJobSnapshot) :
    (Bridge.updateProgress s).convertedFrameVersion = s.convertedFrameVersion := by
  unfold Bridge.updateProgress
  split_ifs <;> rfl

theorem stepEvent_version (s : Bridge.ConversionJobSnapshot)
    (e : Bridge.ConversionProgressEvent) :
    (Bridge.stepEvent s e).convertedFrameVersion
      = s.convertedFrameVersion + (if Bridge.isFrameEvent e then 1 else 0) := by
  unfold Bridge.stepEvent
  rw [updateProgress_version]
  cases e <;> rfl

theorem applyEvents_version (events : List Bridge.ConversionProgressEvent)
    (s : Bridge.ConversionJobSnapshot) :
    (Bridge.applyEvents s events).convertedFrameVersion
      = s.convertedFrameVersion + events.countP (fun e => Bridge.isFrameEvent e) := by
  induction events generalizing s with
  | nil => rfl
  | cons e rest ih =>
    have h1 : Bridge.applyEvents s (e :: rest)
        = Bridge.applyEvents (Bridge.stepEvent s e) rest := rfl
    rw [h1, ih, stepEvent_version, List.countP_cons]
    cases hf : Bridge.isFrameEvent e <;> simp [hf] <;> omega

theorem findFrame_not_emitted (emitted : List String) (now : Int)
    (complete : Bridge.FrameCandidate → Bool) :
    ∀ frames c, Bridge.findFrame emitted now complete frames = some c →
      Bridge.frameKey c ∉ emitted := by
  intro frames
  induction frames with
  | nil =>
    intro c h
    exact absurd h (by simp [Bridge.findFrame])
  | cons f rest ih =>
    intro c h
    unfold Bridge.findFrame at h
    split_ifs at h with h1 h2 h3
    · exact ih c h
    · exact ih c h
    · injection h with h4
      rw [← h4]
      exact h1
    · exact ih c h

theorem runPolls_cons_none (complete previewOk : Bridge.FrameCandidate → Bool)
    (emitted : List String) (now : Int) (frames : List Bridge.FrameCandidate)
    (rest : List (Int × List Bridge.FrameCandidate))
    (hf : Bridge.findFrame emitted now complete frames = none) :
    Bridge.runPolls complete previewOk emitted ((now, frames) :: rest)
      = Bridge.runPolls complete previewOk emitted rest := by
  conv_lhs => unfold Bridge.runPolls
  rw [hf]

theorem runPolls_cons_found (complete previewOk : Bridge.FrameCandidate → Bool)
    (emitted : List String) (now : Int) (frames : List Bridge.FrameCandidate)
    (rest : List (Int × List Bridge.FrameCandidate)) (c : Bridge.FrameCandidate)
    (hf : Bridge.findFrame emitted now complete frames = some c) :
    Bridge.runPolls complete previewOk emitted ((now, frames) :: rest)
      = (if previewOk c then
           ((Bridge.runPolls complete previewOk (Bridge.frameKey c :: emitted) rest).1,
             c :: (Bridge.runPolls complete previewOk (Bridge.frameKey c :: emitted) rest).2)
         else Bridge.runPolls complete previewOk (Bridge.frameKey c :: emitted) rest) := by
  conv_lhs => unfold Bridge.runPolls
  rw [hf]

theorem runPolls_spec (complete previewOk : Bridge.FrameCandidate → Bool) :
    ∀ polls emitted,
      (∀ k, k ∈ emitted → k ∈ (Bridge.runPolls complete previewOk emitted polls).1) ∧
      (∀ c, c ∈ (Bridge.runPolls complete previewOk emitted polls).2 →
          Bridge.frameKey c ∉ emitted) ∧
      ((Bridge.runPolls complete previewOk emitted polls).2.map Bridge.frameKey).Nodup := by
  intro polls
  induction polls with
  | nil =>
    intro emitted
    exact ⟨fun k hk => hk, fun c hc => absurd hc (by simp [Bridge.runPolls]),
      by simp [Bridge.runPolls]⟩
  | cons p rest ih =>
    intro emitted
    obtain ⟨now, frames⟩ := p
    cases hf : Bridge.findFrame emitted now complete frames with
    | none =>
      rw [runPolls_cons_none complete previewOk emitted now frames rest hf]
      exact ih emitted
    | some c =>
      have hkey : Bridge.frameKey c ∉ emitted :=
        findFrame_not_emitted emitted now complete frames c hf
      obtain ⟨ih1, ih2, ih3⟩ := ih (Bridge.frameKey c :: emitted)
      rw [runPolls_cons_found complete previewOk emitted now frames rest c hf]
      cases hp : previewOk c with
      | false =>
        rw [if_neg Bool.false_ne_true]
        refine ⟨fun k hk => ih1 k (List.mem_cons_of_mem _ hk), fun c' hc' => ?_, ih3⟩
        intro hmem
        exact ih2 c' hc' (List.mem_cons_of_mem _ hmem)
      | true =>
        rw [if_pos rfl]
        refine ⟨fun k hk => ih1 k (List.mem_cons_of_mem _ hk), ?_, ?_⟩
        · intro c' hc'
          rcases List.mem_cons.mp hc' with h | h
          · rw [h]; exact hkey
          · intro hmem
            exact ih2 c' h (List.mem_cons_of_mem _ hmem)
        · refine List.Nodup.cons ?_ ih3
          intro hmem
          obtain ⟨c', hc', hkeq⟩ := List.mem_map.mp hmem
          exact ih2 c' hc' (by rw [hkeq]; exact List.mem_cons_self _ _)

/-- C8: `convertedFrameVersion` starts at 0 and grows by exactly one per
accepted frame event (hence strictly increases across accepted frames),
and the frame supervisor never emits two frame events with the same
path+mtime+size key across any sequence of polls. -/
theorem frame_version_and_keys_unique (jobId archiveId : String)
    (s : Bridge.ConversionJobSnapshot)
    (events : List Bridge.ConversionProgressEvent)
    (complete previewOk : Bridge.FrameCandidate → Bool)
    (polls : List (Int × List Bridge.FrameCandidate)) :
    (Bridge.initialSnapshot jobId archiveId).convertedFrameVersion = 0 ∧
    (Bridge.applyEvents s events).convertedFrameVersion
      = s.convertedFrameVersion + events.countP (fun e => Bridge.isFrameEvent e) ∧
    ((Bridge.runPolls complete previewOk [] polls).2.map Bridge.frameKey).Nodup :=
  ⟨rfl, applyEvents_version events s, (runPolls_spec complete previewOk polls []).2.2⟩

theorem jobsGet_delete (jobs : List (String × Bridge.ConversionJobRecord)) (jobId : String) :
    Bridge.jobsGet (Bridge.jobsDelete jobs jobId) jobId = none := by
  induction jobs with
  | nil => rfl
  | cons p rest ih =>
    by_cases hp : p.1 = jobId
    · have hstep : Bridge.jobsDelete (p :: rest) jobId = Bridge.jobsDelete rest jobId := by
        unfold Bridge.jobsDelete
        rw [List.filter_cons, if_neg (by simp [hp])]
      rw [hstep]
      exact ih
    · have hstep : Bridge.jobsDelete (p :: rest) jobId = p :: Bridge.jobsDelete rest jobId := by
        unfold Bridge.jobsDelete
        rw [List.filter_cons, if_pos (by simp [hp])]
      rw [hstep]
      unfold Bridge.jobsGet at ih ⊢
      rw [List.find?_cons_of_neg _ (by simp [hp])]
      exact ih

theorem not_mem_filter_self (l : List String) (x : String) :
    x ∉ l.filter (fun t => ¬ t = x) := by
  intro h
  have := List.of_mem_filter h
  simp at this

/-- C6: `takeJobArtifact` hands an artifact out only for an existing,
`completed`, not-yet-taken job and otherwise returns nothing and changes
nothing; a successful take cancels the pending TTL disposal, removes the
job record at once, and a second take for the same id yields nothing. -/
theorem take_artifact_spec (reg : Bridge.JobRegistry) (jobId : String) :
    (∀ a reg', Bridge.takeJobArtifact reg jobId = (some a, reg') →
        (∃ r, Bridge.jobsGet reg.jobs jobId = some r ∧
            r.snapshot.status = Bridge.JobStatus.completed ∧ r.artifact = some a) ∧
        Bridge.jobsGet reg'.jobs jobId = none ∧
        jobId ∉ reg'.timers ∧
        Bridge.takeJobArtifact reg' jobId = (none, reg')) ∧
    (∀ r, Bridge.jobsGet reg.jobs jobId = some r →
        (r.snapshot.status ≠ Bridge.JobStatus.completed ∨ r.artifact = none) →
        Bridge.takeJobArtifact reg jobId = (none, reg)) ∧
    (Bridge.jobsGet reg.jobs jobId = none →
        Bridge.takeJobArtifact reg jobId = (none, reg)) := by
  cases hg : Bridge.jobsGet reg.jobs jobId with
  | none =>
    have hnone : Bridge.takeJobArtifact reg jobId = (none, reg) := by
      unfold Bridge.takeJobArtifact
      rw [hg]
    refine ⟨?_, ?_, fun _ => hnone⟩
    · intro a reg' h
      rw [hnone] at h
      simp at h
    · intro r hr
      exact absurd hr (by simp)
  | some r =>
    by_cases hst : r.snapshot.status = Bridge.JobStatus.completed
    · cases ha : r.artifact with
      | none =>
        have hnone : Bridge.takeJobArtifact reg jobId = (none, reg) := by
          unfold Bridge.takeJobArtifact
          rw [hg]
          show (if r.snapshot.status ≠ Bridge.JobStatus.completed then (none, reg)
                else match r.artifact with
                  | none => (none, reg)
                  | some artifact =>
                    (some artifact,
                      { jobs := Bridge.jobsDelete reg.jobs jobId
                        timers := reg.timers.filter (fun t => ¬ t = jobId) })) = (none, reg)
          rw [if_neg (by simp [hst]), ha]
        refine ⟨?_, fun _ _ _ => hnone, fun hn => absurd hn (by simp)⟩
        intro a reg' h
        rw [hnone] at h
        simp at h
      | some artifact =>
        have hsucc : Bridge.takeJobArtifact reg jobId =
            (some artifact,
              { jobs := Bridge.jobsDelete reg.jobs jobId
                timers := reg.timers.filter (fun t => ¬ t = jobId) }) := by
          unfold Bridge.takeJobArtifact
          rw [hg]
          show (if r.snapshot.status ≠ Bridge.JobStatus.completed then (none, reg)
                else match r.artifact with
                  | none => (none, reg)
                  | some artifact =>
                    (some artifact,
                      { jobs := Bridge.jobsDelete reg.jobs jobId
                        timers := reg.timers.filter (fun t => ¬ t = jobId) })) = _
          rw [if_neg (by simp [hst]), ha]
        refine ⟨?_, ?_, fun hn => absurd hn (by simp)⟩
        · intro a reg' h
          rw [hsucc] at h
          injection h with h1 h2
          injection h1 with h3
          refine ⟨⟨r, rfl, hst, by rw [ha, h3]⟩, ?_, ?_, ?_⟩
          · rw [← h2]
            exact jobsGet_delete reg.jobs jobId
          · rw [← h2]
            exact not_mem_filter_self reg.timers jobId
          · have hg' : Bridge.jobsGet reg'.jobs jobId = none := by
              rw [← h2]
              exact jobsGet_delete reg.jobs jobId
            unfold Bridge.takeJobArtifact
            rw [hg']
        · intro r' hr' hbad
          injection hr' with hrr
          rw [← hrr] at hbad
          rcases hbad with hbad | hbad
          · exact absurd hst hbad
          · rw [ha] at hbad
            exact absurd hbad (by simp)
    · have hnone : Bridge.takeJobArtifact reg jobId = (none, reg) := by
        unfold Bridge.takeJobArtifact
        rw [hg]
        show (if r.snapshot.status ≠ Bridge.JobStatus.completed then (none, reg)
              else match r.artifact with
                | none => (none, reg)
                | some artifact =>
                  (some artifact,
                    { jobs := Bridge.jobsDelete reg.jobs jobId
                      timers := reg.timers.filter (fun t => ¬ t = jobId) })) = (none, reg)
        rw [if_pos hst]
      refine ⟨?_, fun _ _ _ => hnone, fun hn => absurd hn (by simp)⟩
      intro a reg' h
      rw [hnone] at h
      simp at h

/-- C6 witness: a registry holding one completed job with an armed TTL
timer; the take succeeds, cancels the timer, removes the record at once,
and a second take yields nothing. -/
theorem take_artifact_spec_witness :
    (∃ r, Bridge.jobsGet
        (Bridge.JobRegistry.mk
          [("j", { snapshot := { Bridge.initialSnapshot "j" "a" with
                      status := Bridge.JobStatus.completed }
                   artifact := some ⟨"tmp/deliver/x.xtc", "x.xtc", 7⟩
                   cleanupTimer := true
                   currentConvertedFramePath := none })] ["j"]).jobs "j" = some r ∧
      r.snapshot.status = Bridge.JobStatus.completed ∧
      r.artifact = some ⟨"tmp/deliver/x.xtc", "x.xtc", 7⟩) ∧
    Bridge.jobsGet (Bridge.JobRegistry.mk [] []).jobs "j" = none ∧
    "j" ∉ (Bridge.JobRegistry.mk [] []).timers ∧
    Bridge.takeJobArtifact (Bridge.JobRegistry.mk [] []) "j"
      = (none, Bridge.JobRegistry.mk [] []) :=
  (take_artifact_spec
      (Bridge.JobRegistry.mk
        [("j", { snapshot := { Bridge.initialSnapshot "j" "a" with
                    status := Bridge.JobStatus.completed }
                 artifact := some ⟨"tmp/deliver/x.xtc", "x.xtc", 7⟩
                 cleanupTimer := true
                 currentConvertedFramePath := none })] ["j"]) "j").1
    ⟨"tmp/deliver/x.xtc", "x.xtc", 7⟩ (Bridge.JobRegistry.mk [] []) rfl

/-- C10: if the job's registry record has been reclaimed by the time the
conversion pipeline finishes, the completion continuation reports the
fresh artifact as disposed and leaves the registry untouched — no entry
for the job is re-created. -/
theorem vanished_job_completion (reg : Bridge.JobRegistry) (jobId : String)
    (artifact : Bridge.ConversionArtifact)
    (h : Bridge.jobsGet reg.jobs jobId = none) :
    Bridge.completeConversionJob reg jobId artifact = (reg, true) ∧
    Bridge.jobsGet (Bridge.completeConversionJob reg jobId artifact).1.jobs jobId = none := by
  have hmain : Bridge.completeConversionJob reg jobId artifact = (reg, true) := by
    unfold Bridge.completeConversionJob
    rw [h]
  refine ⟨hmain, ?_⟩
  rw [hmain]
  exact h

/-- C10 witness: the registry is empty (the record was reclaimed). -/
theorem vanished_job_completion_witness :
    Bridge.completeConversionJob (Bridge.JobRegistry.mk [] []) "j" ⟨"f", "n", 1⟩
        = (Bridge.JobRegistry.mk [] [], true) ∧
    Bridge.jobsGet (Bridge.completeConversionJob (Bridge.JobRegistry.mk [] [])
        "j" ⟨"f", "n", 1⟩).1.jobs "j" = none :=
  vanished_job_completion (Bridge.JobRegistry.mk [] []) "j" ⟨"f", "n", 1⟩ rfl

theorem looksLike_of_image_prefix (ct : String)
    (h : Bridge.startsWithStr ct "image/" = true) :
    Bridge.looksLikeCoverOrNonArchive ct = true := by
  have hpre : "image/".data <+: ct.data := by
    rw [← List.isPrefixOf_iff_prefix]
    exact h
  obtain ⟨t, ht⟩ := hpre
  have hlow : (Bridge.toLowerString ct).data = "image/".data ++ t.map Char.toLower := by
    unfold Bridge.toLowerString
    show ct.data.map Char.toLower = _
    rw [← ht, List.map_append]
    congr 1
  unfold Bridge.looksLikeCoverOrNonArchive
  rw [if_neg (by rw [hlow]; simp), if_pos ?hpos]
  case hpos =>
    unfold Bridge.startsWithStr
    rw [List.isPrefixOf_iff_prefix, hlow]
    exact List.prefix_append _ _

/-- C3: when the raw archive download of a cbz/zip-extension archive
reports an `image/...` content-type, the resolution never selects the
direct-download container (whatever the payload's zip signature says):
it falls back to page assembly when any page resolves and raises the
fatal no-pages error only when none do. -/
theorem image_download_falls_back (extension contentType : String)
    (payloadIsZip : Bool) (pages : List String)
    (hext : Bridge.isCbzLikeExtension extension = true)
    (himg : Bridge.startsWithStr contentType "image/" = true) :
    Bridge.resolveConversionInput false extension contentType payloadIsZip pages
        ≠ Bridge.InputResolution.directDownload ∧
    (pages ≠ [] →
      Bridge.resolveConversionInput false extension contentType payloadIsZip pages
        = Bridge.InputResolution.pagesFallback pages) ∧
    (pages = [] →
      Bridge.resolveConversionInput false extension contentType payloadIsZip pages
        = Bridge.InputResolution.fatalError
            "Archive download did not return an archive and no pages were found.") := by
  have hlook := looksLike_of_image_prefix contentType himg
  have hred : Bridge.resolveConversionInput false extension contentType payloadIsZip pages
      = if pages.isEmpty then
          Bridge.InputResolution.fatalError
            "Archive download did not return an archive and no pages were found."
        else Bridge.InputResolution.pagesFallback pages := by
    unfold Bridge.resolveConversionInput
    rw [if_neg (by simp), if_pos hext, if_pos hlook]
  rw [hred]
  cases pages with
  | nil =>
    exact ⟨by decide, fun hne => absurd rfl hne, fun _ => rfl⟩
  | cons p rest =>
    exact ⟨fun hc => Bridge.InputResolution.noConfusion hc, fun _ => rfl,
      fun heq => absurd heq (by simp)⟩

/-- C3 witness: a `cbz` archive whose download is a disguised JPEG, with
one resolvable page. -/
theorem image_download_falls_back_witness :
    Bridge.resolveConversionInput false "cbz" "image/jpeg" true ["p1"]
        ≠ Bridge.InputResolution.directDownload ∧
    ((["p1"] : List String) ≠ [] →
      Bridge.resolveConversionInput false "cbz" "image/jpeg" true ["p1"]
        = Bridge.InputResolution.pagesFallback ["p1"]) ∧
    ((["p1"] : List String) = [] →
      Bridge.resolveConversionInput false "cbz" "image/jpeg" true ["p1"]
        = Bridge.InputResolution.fatalError
            "Archive download did not return an archive and no pages were found.") :=
  image_download_falls_back "cbz" "image/jpeg" true ["p1"] (by decide) (by decide)

/-- C7: a 2xx first attempt succeeds with no delete; a conflict-like
first attempt (409/412 status or conflict wording in the body) issues
exactly one delete and at most one retry, succeeding exactly when the
retry is 2xx; a non-conflict first failure, a delete failure and a retry
failure each raise the error carrying the corresponding failure's status
and truncated body (the delete-failure message wraps the original
first-attempt context), with no further attempts. -/
theorem upload_retry_spec (t : Bridge.UploadTrace) :
    (Bridge.is2xx t.first = true →
        Bridge.uploadFile t = ⟨none, 1, 0⟩) ∧
    (Bridge.is2xx t.first = false →
      ¬ (t.first.status = 409 ∨ t.first.status = 412 ∨
          Bridge.bodyLooksConflict t.first.body = true) →
        Bridge.uploadFile t
          = ⟨some ("Device upload failed (" ++ toString t.first.status ++ "): "
              ++ Bridge.jsSlice200 t.first.body), 1, 0⟩) ∧
    (Bridge.is2xx t.first = false →
      (t.first.status = 409 ∨ t.first.status = 412 ∨
          Bridge.bodyLooksConflict t.first.body = true) →
      Bridge.is2xx t.deleteResult = false →
        Bridge.uploadFile t
          = ⟨some ("Device upload failed (" ++ toString t.first.status ++ "): "
              ++ Bridge.jsSlice200 t.first.body
              ++ "; overwrite retry failed (Device delete failed ("
              ++ toString t.deleteResult.status ++ "): "
              ++ Bridge.jsSlice200 t.deleteResult.body ++ ")"), 1, 1⟩) ∧
    (Bridge.is2xx t.first = false →
      (t.first.status = 409 ∨ t.first.status = 412 ∨
          Bridge.bodyLooksConflict t.first.body = true) →
      Bridge.is2xx t.deleteResult = true →
        (Bridge.uploadFile t).deleteCalls = 1 ∧
        (Bridge.uploadFile t).uploadCalls = 2 ∧
        ((Bridge.uploadFile t).error = none ↔ Bridge.is2xx t.retry = true) ∧
        (Bridge.is2xx t.retry = false →
          (Bridge.uploadFile t).error
            = some ("Device upload retry failed (" ++ toString t.retry.status ++ "): "
                ++ Bridge.jsSlice200 t.retry.body))) := by
  refine ⟨?_, ?_, ?_, ?_⟩
  · intro h1
    unfold Bridge.uploadFile
    rw [if_pos h1]
  · intro h1 h2
    unfold Bridge.uploadFile
    rw [if_neg (by rw [h1]; exact Bool.false_ne_true), if_pos h2]
  · intro h1 h2 h3
    unfold Bridge.uploadFile
    rw [if_neg (by rw [h1]; exact Bool.false_ne_true), if_neg (fun hn => hn h2),
        if_pos (by rw [h3]; exact Bool.false_ne_true)]
  · intro h1 h2 h3
    unfold Bridge.uploadFile
    rw [if_neg (by rw [h1]; exact Bool.false_ne_true), if_neg (fun hn => hn h2),
        if_neg (fun hn => hn h3)]
    cases hr : Bridge.is2xx t.retry with
    | true =>
      rw [if_neg (fun hn => hn rfl)]
      exact ⟨rfl, rfl, ⟨fun _ => rfl, fun _ => rfl⟩, fun hf => absurd hf (by decide)⟩
    | false =>
      rw [if_pos Bool.false_ne_true]
      exact ⟨rfl, rfl, ⟨fun h => absurd h (by simp), fun h => absurd h (by decide)⟩,
        fun _ => rfl⟩

/-- C7 witness: first attempt 409, delete succeeds, retry 204. -/
theorem upload_retry_spec_witness :
    (Bridge.uploadFile ⟨⟨409, "exists"⟩, ⟨200, ""⟩, ⟨204, ""⟩⟩).deleteCalls = 1 ∧
    (Bridge.uploadFile ⟨⟨409, "exists"⟩, ⟨200, ""⟩, ⟨204, ""⟩⟩).uploadCalls = 2 ∧
    ((Bridge.uploadFile ⟨⟨409, "exists"⟩, ⟨200, ""⟩, ⟨204, ""⟩⟩).error = none ↔
        Bridge.is2xx ⟨204, ""⟩ = true) ∧
    (Bridge.is2xx ⟨204, ""⟩ = false →
      (Bridge.uploadFile ⟨⟨409, "exists"⟩, ⟨200, ""⟩, ⟨204, ""⟩⟩).error
        = some ("Device upload retry failed (" ++ toString (204 : Nat) ++ "): "
            ++ Bridge.jsSlice200 "")) :=
  (upload_retry_spec ⟨⟨409, "exists"⟩, ⟨200, ""⟩, ⟨204, ""⟩⟩).2.2.2
    (by decide) (Or.inl rfl) (by decide)

theorem lt_length_of_get?_some {α : Type} (l : List α) (n : Nat) (a : α)
    (h : l.get? n = some a) : n < l.length := by
  by_contra hn
  rw [List.get?_eq_none.mpr (Nat.le_of_not_lt hn)] at h
  exact Option.noConfusion h

theorem get?_set_self {α : Type} (l : List α) (k : Nat) (a : α) (h : k < l.length) :
    (l.set k a).get? k = some a := by
  induction l generalizing k with
  | nil => cases h
  | cons x rest ih =>
    cases k with
    | zero => rfl
    | succ m => exact ih m (Nat.lt_of_succ_lt_succ h)

theorem get?_set_other {α : Type} (l : List α) (k n : Nat) (a : α) (h : k ≠ n) :
    (l.set k a).get? n = l.get? n := by
  induction l generalizing k n with
  | nil => rfl
  | cons x rest ih =>
    cases k with
    | zero =>
      cases n with
      | zero => exact absurd rfl h
      | succ m => rfl
    | succ km =>
      cases n with
      | zero => rfl
      | succ m => exact ih km m (fun hh => h (congrArg Nat.succ hh))

theorem map_fst_set (l : List (Nat × Bridge.UploadPhase)) (k : Nat) (i : Nat)
    (ph ph' : Bridge.UploadPhase) (h : l.get? k = some (i, ph)) :
    (l.set k (i, ph')).map Prod.fst = l.map Prod.fst := by
  induction l generalizing k with
  | nil => rfl
  | cons x rest ih =>
    cases k with
    | zero =>
      injection h with hx
      rw [hx]
      rfl
    | succ m =>
      have : (rest.set m (i, ph')).map Prod.fst = rest.map Prod.fst := ih m h
      show x.1 :: (rest.set m (i, ph')).map Prod.fst = x.1 :: rest.map Prod.fst
      rw [this]

theorem batchStep_inv (n w : Nat) (s : Bridge.BatchState) (a : Bridge.BatchAction)
    (next : Bridge.BatchState) (h : Bridge.BatchInv w s)
    (hstep : Bridge.batchStep n w s a = some next) : Bridge.BatchInv w next := by
  obtain ⟨h1, h2, h3⟩ := h
  cases a with
  | pick =>
    have hstep' : (if s.nextIndex < n ∧ s.converting.length < w then
        some { s with nextIndex := s.nextIndex + 1
                      converting := s.converting ++ [s.nextIndex] }
        else none) = some next := hstep
    split_ifs at hstep' with hc
    · injection hstep' with hnext
      rw [← hnext]
      obtain ⟨hn, hw⟩ := hc
      refine ⟨?_, h2, ?_⟩
      · rw [List.length_append]
        simp only [List.length_singleton]
        omega
      · intro i hi
        rcases Nat.lt_or_ge i s.nextIndex with hlt | hge
        · rcases h3 i hlt with hm | hm | hm
          · exact Or.inl (List.mem_append_left _ hm)
          · exact Or.inr (Or.inl hm)
          · exact Or.inr (Or.inr hm)
        · have hie : i = s.nextIndex := by
            have hlt1 : i < s.nextIndex + 1 := hi
            omega
          rw [hie]
          exact Or.inl (List.mem_append_right _ (List.mem_singleton_self _))
  | convertOk i =>
    have hstep' : (if i ∈ s.converting then
        some { s with converting := s.converting.erase i
                      uploads := s.uploads ++ [(i, Bridge.UploadPhase.queuedU)] }
        else none) = some next := hstep
    split_ifs at hstep' with hc
    · injection hstep' with hnext
      rw [← hnext]
      refine ⟨?_, ?_, ?_⟩
      · exact le_trans (List.length_erase_le _ _) h1
      · intro j k pj pk hjk hj hk hrun
        by_cases hkl : k < s.uploads.length
        · have hk' : s.uploads.get? k = some pk := by
            rw [← List.get?_append hkl]
            exact hk
          have hjl : j < s.uploads.length := lt_trans hjk hkl
          have hj' : s.uploads.get? j = some pj := by
            rw [← List.get?_append hjl]
            exact hj
          exact h2 j k pj pk hjk hj' hk' hrun
        · have hlen : s.uploads.length ≤ k := Nat.le_of_not_lt hkl
          rw [List.get?_append_right hlen] at hk
          cases hkk : k - s.uploads.length with
          | zero =>
            rw [hkk] at hk
            injection hk with hpk
            rw [← hpk] at hrun
            exact Bridge.UploadPhase.noConfusion hrun
          | succ m =>
            rw [hkk] at hk
            exact absurd hk (by simp)
      · intro i' hi'
        rcases h3 i' hi' with hm | hm | hm
        · by_cases hii : i' = i
          · refine Or.inr (Or.inr ?_)
            rw [List.map_append]
            refine List.mem_append_right _ ?_
            rw [hii]
            simp
          · exact Or.inl ((List.mem_erase_of_ne hii).mpr hm)
        · exact Or.inr (Or.inl hm)
        · refine Or.inr (Or.inr ?_)
          rw [List.map_append]
          exact List.mem_append_left _ hm
  | convertFail i =>
    have hstep' : (if i ∈ s.converting then
        some { s with converting := s.converting.erase i
                      convFailures := s.convFailures ++ [i] }
        else none) = some next := hstep
    split_ifs at hstep' with hc
    · injection hstep' with hnext
      rw [← hnext]
      refine ⟨le_trans (List.length_erase_le _ _) h1, h2, ?_⟩
      intro i' hi'
      rcases h3 i' hi' with hm | hm | hm
      · by_cases hii : i' = i
        · refine Or.inr (Or.inl ?_)
          refine List.mem_append_right _ ?_
          rw [hii]
          simp
        · exact Or.inl ((List.mem_erase_of_ne hii).mpr hm)
      · exact Or.inr (Or.inl (List.mem_append_left _ hm))
      · exact Or.inr (Or.inr hm)
  | uploadStart k =>
    have hstep' : (match s.uploads.get? k with
        | some (i, Bridge.UploadPhase.queuedU) =>
          if (s.uploads.take k).all (fun p => Bridge.uploadSettled p.2) then
            some { s with uploads := s.uploads.set k (i, Bridge.UploadPhase.runningU) }
          else none
        | _ => none) = some next := hstep
    cases hu : s.uploads.get? k with
    | none =>
      rw [hu] at hstep'
      exact Option.noConfusion hstep'
    | some p =>
      obtain ⟨ip, php⟩ := p
      rw [hu] at hstep'
      cases php with
      | queuedU =>
        have hstep2 : (if (s.uploads.take k).all (fun p => Bridge.uploadSettled p.2) then
            some { s with uploads := s.uploads.set k (ip, Bridge.UploadPhase.runningU) }
            else none) = some next := hstep'
        split_ifs at hstep2 with hall
        · injection hstep2 with hnext
          rw [← hnext]
          refine ⟨h1, ?_, ?_⟩
          · intro j k' pj pk hjk hj hk hrun
            by_cases hkk : k' = k
            · subst hkk
              have hjne : k' ≠ j := fun hh => absurd hh.symm (Nat.ne_of_lt hjk)
              rw [get?_set_other s.uploads k' j _ hjne] at hj
              have hmem : pj ∈ s.uploads.take k' :=
                @List.get?_mem _ _ j pj (by rw [List.get?_take hjk]; exact hj)
              rw [List.all_eq_true] at hall
              exact hall pj hmem
            · rw [get?_set_other s.uploads k k' _ (fun hh => hkk hh.symm)] at hk
              by_cases hjj : j = k
              · subst hjj
                have hjl : j < s.uploads.length := lt_length_of_get?_some _ _ _ hu
                rw [get?_set_self s.uploads j _ hjl] at hj
                have hcontra := h2 j k' (ip, Bridge.UploadPhase.queuedU) pk hjk hu hk hrun
                exact Bool.noConfusion hcontra
              · rw [get?_set_other s.uploads k j _ (fun hh => hjj hh.symm)] at hj
                exact h2 j k' pj pk hjk hj hk hrun
          · intro i' hi'
            rcases h3 i' hi' with hm | hm | hm
            · exact Or.inl hm
            · exact Or.inr (Or.inl hm)
            · refine Or.inr (Or.inr ?_)
              rw [map_fst_set s.uploads k ip Bridge.UploadPhase.queuedU
                Bridge.UploadPhase.runningU hu]
              exact hm
      | runningU => exact Option.noConfusion hstep'
      | doneU => exact Option.noConfusion hstep'
      | failedU => exact Option.noConfusion hstep'
  | uploadSettle k ok =>
    have hstep' : (match s.uploads.get? k with
        | some (i, Bridge.UploadPhase.runningU) =>
          some { s with uploads := s.uploads.set k (i, if ok then Bridge.UploadPhase.doneU else Bridge.UploadPhase.failedU) }
        | _ => none) = some next := hstep
    cases hu : s.uploads.get? k with
    | none =>
      rw [hu] at hstep'
      exact Option.noConfusion hstep'
    | some p =>
      obtain ⟨ip, php⟩ := p
      rw [hu] at hstep'
      cases php with
      | runningU =>
        have hstep2 : some { s with uploads := s.uploads.set k (ip, if ok then Bridge.UploadPhase.doneU else Bridge.UploadPhase.failedU) }
            = some next := hstep'
        injection hstep2 with hnext
        rw [← hnext]
        have hsettled : Bridge.uploadSettled
            (if ok then Bridge.UploadPhase.doneU else Bridge.UploadPhase.failedU) = true := by
          cases ok <;> rfl
        have hnotrun : (if ok then Bridge.UploadPhase.doneU else Bridge.UploadPhase.failedU)
            ≠ Bridge.UploadPhase.runningU := by
          cases ok <;> decide
        refine ⟨h1, ?_, ?_⟩
        · intro j k' pj pk hjk hj hk hrun
          by_cases hkk : k' = k
          · subst hkk
            have hkl : k' < s.uploads.length := lt_length_of_get?_some _ _ _ hu
            rw [get?_set_self s.uploads k' _ hkl] at hk
            injection hk with hpk
            rw [← hpk] at hrun
            exact absurd hrun hnotrun
          · rw [get?_set_other s.uploads k k' _ (fun hh => hkk hh.symm)] at hk
            by_cases hjj : j = k
            · subst hjj
              have hjl : j < s.uploads.length := lt_length_of_get?_some _ _ _ hu
              rw [get?_set_self s.uploads j _ hjl] at hj
              injection hj with hpj
              rw [← hpj]
              exact hsettled
            · rw [get?_set_other s.uploads k j _ (fun hh => hjj hh.symm)] at hj
              exact h2 j k' pj pk hjk hj hk hrun
        · intro i' hi'
          rcases h3 i' hi' with hm | hm | hm
          · exact Or.inl hm
          · exact Or.inr (Or.inl hm)
          · refine Or.inr (Or.inr ?_)
            rw [map_fst_set s.uploads k ip Bridge.UploadPhase.runningU _ hu]
            exact hm
      | queuedU => exact Option.noConfusion hstep'
      | doneU => exact Option.noConfusion hstep'
      | failedU => exact Option.noConfusion hstep'

theorem runBatch_inv (n w : Nat) : ∀ acts (s s' : Bridge.BatchState),
    Bridge.BatchInv w s → Bridge.runBatch n w s acts = some s' → Bridge.BatchInv w s' := by
  intro acts
  induction acts with
  | nil =>
    intro s s' h hrun
    injection hrun with h'
    rw [← h']
    exact h
  | cons a rest ih =>
    intro s s' h hrun
    have hrun' : (match Bridge.batchStep n w s a with
        | some next => Bridge.runBatch n w next rest
        | none => none) = some s' := hrun
    cases hst : Bridge.batchStep n w s a with
    | none =>
      rw [hst] at hrun'
      exact Option.noConfusion hrun'
    | some next =>
      rw [hst] at hrun'
      exact ih next s' (batchStep_inv n w s a next h hst) hrun'

theorem initBatch_inv (w : Nat) : Bridge.BatchInv w Bridge.initBatch := by
  refine ⟨by simp [Bridge.initBatch], ?_, ?_⟩
  · intro j k pj pk hjk hj hk hrun
    simp [Bridge.initBatch] at hj
  · intro i hi
    simp [Bridge.initBatch] at hi

/-- C9: in the 6-archive, 4-worker upload batch, every reachable
interleaving keeps at most 4 conversions in flight and at most one
upload running on the sequential chain; when the batch's exit condition
holds, every archive has settled — it failed or sits on the (fully
settled) upload chain; and one archive's conversion failure does not
keep the other five from converting and uploading to completion, as the
exhibited interleaving `demoBatchActions` shows. -/
theorem batch_scheduler_spec (acts : List Bridge.BatchAction) (s : Bridge.BatchState)
    (h : Bridge.runBatch 6 (min Bridge.BATCH_MAX_PARALLEL 6) Bridge.initBatch acts = some s) :
    s.converting.length ≤ 4 ∧
    (∀ j k pj pk, s.uploads.get? j = some pj → s.uploads.get? k = some pk →
        pj.2 = Bridge.UploadPhase.runningU → pk.2 = Bridge.UploadPhase.runningU → j = k) ∧
    (Bridge.batchDone 6 s →
        ∀ i, i < 6 → i ∈ s.convFailures ∨ i ∈ s.uploads.map Prod.fst) ∧
    (Bridge.runBatch 6 (min Bridge.BATCH_MAX_PARALLEL 6) Bridge.initBatch
          Bridge.demoBatchActions = some Bridge.demoBatchFinal ∧
      Bridge.batchDone 6 Bridge.demoBatchFinal ∧
      Bridge.demoBatchFinal.convFailures = [2] ∧
      (∀ i, i < 6 → i ≠ 2 →
          (i, Bridge.UploadPhase.doneU) ∈ Bridge.demoBatchFinal.uploads)) := by
  obtain ⟨h1, h2, h3⟩ :=
    runBatch_inv 6 (min Bridge.BATCH_MAX_PARALLEL 6) acts Bridge.initBatch s
      (initBatch_inv _) h
  refine ⟨le_trans h1 (by decide), ?_, ?_, by decide, ⟨by decide, by decide, by decide⟩, by decide, by decide⟩
  · intro j k pj pk hj hk hpj hpk
    rcases Nat.lt_trichotomy j k with hlt | heq | hgt
    · have := h2 j k pj pk hlt hj hk hpk
      rw [hpj] at this
      exact absurd this (by decide)
    · exact heq
    · have := h2 k j pk pj hgt hk hj hpj
      rw [hpk] at this
      exact absurd this (by decide)
  · intro hdone i hi
    rcases h3 i (lt_of_lt_of_le hi hdone.1) with hm | hm | hm
    · rw [hdone.2.1] at hm
      exact absurd hm (by simp)
    · exact Or.inl hm
    · exact Or.inr hm

/-- C9 witness: the exhibited interleaving itself is a reachable run. -/
theorem batch_scheduler_spec_witness :
    Bridge.demoBatchFinal.converting.length ≤ 4 ∧
    (∀ j k pj pk, Bridge.demoBatchFinal.uploads.get? j = some pj →
        Bridge.demoBatchFinal.uploads.get? k = some pk →
        pj.2 = Bridge.UploadPhase.runningU → pk.2 = Bridge.UploadPhase.runningU → j = k) ∧
    (Bridge.batchDone 6 Bridge.demoBatchFinal →
        ∀ i, i < 6 →
          i ∈ Bridge.demoBatchFinal.convFailures ∨
          i ∈ Bridge.demoBatchFinal.uploads.map Prod.fst) ∧
    (Bridge.runBatch 6 (min Bridge.BATCH_MAX_PARALLEL 6) Bridge.initBatch
          Bridge.demoBatchActions = some Bridge.demoBatchFinal ∧
      Bridge.batchDone 6 Bridge.demoBatchFinal ∧
      Bridge.demoBatchFinal.convFailures = [2] ∧
      (∀ i, i < 6 → i ≠ 2 →
          (i, Bridge.UploadPhase.doneU) ∈ Bridge.demoBatchFinal.uploads)) :=
  batch_scheduler_spec Bridge.demoBatchActions Bridge.demoBatchFinal (by decide)
